import Mathlib

/-!
# Verification of the video-sorcerer export pipeline

Shallow embedding of the export pipeline of `src/components/video-edit.tsx`
(and its variant `src/unnamed/part_000`), together with the pixel-filter
worker selection of `src/lib/canvas.worker.ts` / `src/lib/ffmpeg.worker.ts`.
Timestamps, durations and progress values are modelled as exact rationals
(`ℚ`), mirroring the spec's arithmetic (`timestamp = index / fps`,
`totalFrames = ceil(duration × fps)`).
-/

namespace VideoSorcerer

/-! ## Configuration enumerations (video-edit.tsx lines 28-30) -/

inductive VideoFilter
  | none
  | sepia
  | grayscale
  | invert
deriving DecidableEq, Repr

inductive Resolution
  | p1080
  | p720
  | p540
deriving DecidableEq, Repr

inductive Format
  | webm
  | mp4
deriving DecidableEq, Repr

/-! ## Frame sampling (video-edit.tsx lines 317-331)

```
const totalFrames = Math.ceil(duration * fps);
const frameInterval = 1 / fps;
for (let i = 0; i < totalFrames; i++) {
  const currentTime = i * frameInterval;
  if (currentTime > duration) break;
  videoClone.currentTime = currentTime;  // seek request issued here
  ...
}
```
-/

/-- `Math.ceil(duration * fps)` (video-edit.tsx line 317). -/
def totalFrames (duration : ℚ) (fps : ℕ) : ℤ := ⌈duration * fps⌉

/-- `const frameInterval = 1 / fps` (video-edit.tsx line 318). -/
def frameInterval (fps : ℕ) : ℚ := 1 / fps

/-- `const currentTime = i * frameInterval` (video-edit.tsx line 321). -/
def frameTimestamp (fps : ℕ) (i : ℕ) : ℚ := i * frameInterval fps

/-- The timestamps of the frame/seek requests the export loop actually issues:
the loop runs `i = 0 .. totalFrames-1` and issues the seek for iteration `i`
unless `currentTime > duration`, in which case it breaks out — hence the
`takeWhile` over the candidate timestamps (video-edit.tsx lines 320-331). -/
def sampledTimestamps (duration : ℚ) (fps : ℕ) : List ℚ :=
  ((List.range (totalFrames duration fps).toNat).map (frameTimestamp fps)).takeWhile
    (fun t => decide (¬ t > duration))

/-- Every candidate timestamp of the loop stays within the source duration:
for `i < ceil(duration*fps)` we have `i * (1/fps) ≤ duration`. -/
theorem frameTimestamp_le_duration {duration : ℚ} {fps : ℕ} (hf : 0 < fps)
    {i : ℕ} (hi : i < (totalFrames duration fps).toNat) :
    frameTimestamp fps i ≤ duration := by
  have hfQ : (0 : ℚ) < fps := by exact_mod_cast hf
  have hiz : (i : ℤ) < totalFrames duration fps := Int.lt_toNat.mp hi
  have hilt : (i : ℚ) < duration * fps := by
    have := Int.lt_ceil.mp hiz
    exact_mod_cast this
  have : (i : ℚ) / fps ≤ duration := by
    rw [div_le_iff₀ hfQ]
    exact le_of_lt (by linarith [hilt])
  simpa [frameTimestamp, frameInterval, mul_one_div] using this

/-- When `fps > 0`, the break `if (currentTime > duration) break` never
fires: the loop issues a seek request for every candidate index. -/
theorem sampledTimestamps_eq_all {duration : ℚ} {fps : ℕ} (hf : 0 < fps) :
    sampledTimestamps duration fps =
      (List.range (totalFrames duration fps).toNat).map (frameTimestamp fps) := by
  unfold sampledTimestamps
  rw [List.takeWhile_eq_self_iff]
  intro t ht
  rcases List.mem_map.mp ht with ⟨i, hi, rfl⟩
  have := frameTimestamp_le_duration hf (List.mem_range.mp hi)
  simpa using this

/-- C1: for every `fps > 0` and `duration > 0`, the export computes
`totalFrames = ceil(duration × fps)`, the number of frame (seek) requests it
issues equals `totalFrames`, and every issued request's timestamp is at most
the source duration (so exactly `totalFrames` requests have `timestamp ≤
duration`, and none beyond the duration is ever issued). -/
theorem export_totalFrames_and_requests (d : ℚ) (f : ℕ) (hf : 0 < f)
    (hd : 0 < d) :
    totalFrames d f = ⌈d * (f : ℚ)⌉ ∧
    ((sampledTimestamps d f).length : ℤ) = totalFrames d f ∧
    ∀ t ∈ sampledTimestamps d f, t ≤ d := by
  have hfQ : (0 : ℚ) < f := by exact_mod_cast hf
  have hpos : 0 < totalFrames d f := by
    have : (0 : ℚ) < d * f := mul_pos hd hfQ
    exact Int.ceil_pos.mpr this
  refine ⟨rfl, ?_, ?_⟩
  · rw [sampledTimestamps_eq_all hf, List.length_map, List.length_range]
    exact Int.toNat_of_nonneg (le_of_lt hpos)
  · intro t ht
    rw [sampledTimestamps_eq_all hf] at ht
    rcases List.mem_map.mp ht with ⟨i, hi, rfl⟩
    exact frameTimestamp_le_duration hf (List.mem_range.mp hi)

/-- Witness for C1 at `duration = 1`, `fps = 2`. -/
theorem export_totalFrames_and_requests_witness :
    totalFrames 1 2 = ⌈(1 : ℚ) * (2 : ℚ)⌉ ∧
    ((sampledTimestamps 1 2).length : ℤ) = totalFrames 1 2 ∧
    ∀ t ∈ sampledTimestamps 1 2, t ≤ 1 :=
  export_totalFrames_and_requests 1 2 (by norm_num) (by norm_num)

/-- C2: the seek request for frame index `N` positions the source at
timestamp exactly `N / fps` seconds: the `N`-th issued timestamp is
`N * (1/fps) = N / fps`. -/
theorem export_seeks_index_over_fps (d : ℚ) (f : ℕ) (i : ℕ)
    (h : i < (sampledTimestamps d f).length) :
    (sampledTimestamps d f).get ⟨i, h⟩ = (i : ℚ) / f := by
  have hpre : sampledTimestamps d f <+:
      (List.range (totalFrames d f).toNat).map (frameTimestamp f) :=
    List.takeWhile_prefix _
  have hlen : i < ((List.range (totalFrames d f).toNat).map
      (frameTimestamp f)).length := lt_of_lt_of_le h hpre.length_le
  have hlen' : i < (totalFrames d f).toNat := by
    simpa using hlen
  have := hpre.getElem h
  rw [List.get_eq_getElem, this, List.getElem_map, List.getElem_range]
  simp [frameTimestamp, frameInterval, div_eq_mul_inv]

/-- Concrete evaluation: at `duration = 1`, `fps = 2` the export issues the
two seek requests `0` and `1/2`. -/
theorem sampledTimestamps_one_two : sampledTimestamps 1 2 = [0, 1/2] := by
  have h : totalFrames 1 2 = 2 := by norm_num [totalFrames]
  simp [sampledTimestamps, h, frameTimestamp, frameInterval, List.range_succ,
    List.takeWhile]
  norm_num

theorem sampledTimestamps_one_two_length : 1 < (sampledTimestamps 1 2).length := by
  rw [sampledTimestamps_one_two]
  norm_num

/-- Witness for C2 at `duration = 1`, `fps = 2`, frame index `1`. -/
theorem export_seeks_index_over_fps_witness :
    (sampledTimestamps 1 2).get ⟨1, sampledTimestamps_one_two_length⟩ = (1 : ℚ) / 2 :=
  export_seeks_index_over_fps 1 2 1 sampledTimestamps_one_two_length

/-! ## Progress reporting (video-edit.tsx lines 221, 357-358)

```
setExportProgress(0);                              // before the loop
...
const progress = ((i + 1) / totalFrames) * 100;    // once per processed frame
setExportProgress(progress);
```
-/

/-- The progress values handed to `setExportProgress` during one run of
`exportVideo`, in emission order: `0` before the loop, then
`((i+1)/totalFrames)*100` once for each processed frame. -/
def progressTrace (d : ℚ) (f : ℕ) : List ℚ :=
  0 :: (List.range (sampledTimestamps d f).length).map
    (fun i : ℕ => ((i : ℚ) + 1) / ((totalFrames d f : ℤ) : ℚ) * 100)

/-- C3: for `fps > 0` and `duration > 0`, the emitted progress sequence is
monotonically non-decreasing, every value lies in `[0, 100]`, there is one
emission per processed frame (plus the initial `0`), and the final emission
is exactly `100`. -/
theorem export_progress_properties (d : ℚ) (f : ℕ) (hf : 0 < f)
    (hd : 0 < d) :
    (progressTrace d f).Pairwise (· ≤ ·) ∧
    (∀ p ∈ progressTrace d f, 0 ≤ p ∧ p ≤ 100) ∧
    (progressTrace d f).length = (sampledTimestamps d f).length + 1 ∧
    (progressTrace d f).getLast? = some 100 := by
  have hfQ : (0 : ℚ) < f := by exact_mod_cast hf
  have hTpos : 0 < totalFrames d f := Int.ceil_pos.mpr (mul_pos hd hfQ)
  have hTQ : (0 : ℚ) < ((totalFrames d f : ℤ) : ℚ) := by exact_mod_cast hTpos
  have hlen : (sampledTimestamps d f).length = (totalFrames d f).toNat := by
    rw [sampledTimestamps_eq_all hf, List.length_map, List.length_range]
  have hcast : (((totalFrames d f).toNat : ℚ)) = ((totalFrames d f : ℤ) : ℚ) := by
    exact_mod_cast Int.toNat_of_nonneg (le_of_lt hTpos)
  have hg_alt : ∀ i : ℕ,
      ((i : ℚ) + 1) / ((totalFrames d f : ℤ) : ℚ) * 100 =
        ((i : ℚ) + 1) * (100 / ((totalFrames d f : ℤ) : ℚ)) := by
    intro i; ring
  have hfrac_nonneg : (0 : ℚ) ≤ 100 / ((totalFrames d f : ℤ) : ℚ) :=
    div_nonneg (by norm_num) (le_of_lt hTQ)
  have hg_nonneg : ∀ i : ℕ,
      0 ≤ ((i : ℚ) + 1) / ((totalFrames d f : ℤ) : ℚ) * 100 := by
    intro i
    rw [hg_alt]
    exact mul_nonneg (by positivity) hfrac_nonneg
  have hg_le : ∀ i : ℕ, i < (totalFrames d f).toNat →
      ((i : ℚ) + 1) / ((totalFrames d f : ℤ) : ℚ) * 100 ≤ 100 := by
    intro i hi
    have hi' : ((i : ℚ) + 1) ≤ ((totalFrames d f : ℤ) : ℚ) := by
      rw [← hcast]
      exact_mod_cast Nat.succ_le_of_lt hi
    rw [hg_alt]
    calc ((i : ℚ) + 1) * (100 / ((totalFrames d f : ℤ) : ℚ))
        ≤ ((totalFrames d f : ℤ) : ℚ) * (100 / ((totalFrames d f : ℤ) : ℚ)) :=
          mul_le_mul_of_nonneg_right hi' hfrac_nonneg
      _ = 100 := by field_simp
  have hg_mono : ∀ a b : ℕ, a < b →
      ((a : ℚ) + 1) / ((totalFrames d f : ℤ) : ℚ) * 100 ≤
        ((b : ℚ) + 1) / ((totalFrames d f : ℤ) : ℚ) * 100 := by
    intro a b hab
    rw [hg_alt, hg_alt]
    apply mul_le_mul_of_nonneg_right _ hfrac_nonneg
    have : (a : ℚ) ≤ (b : ℚ) := by exact_mod_cast le_of_lt hab
    linarith
  refine ⟨?_, ?_, ?_, ?_⟩
  · rw [progressTrace, List.pairwise_cons]
    constructor
    · intro p hp
      rcases List.mem_map.mp hp with ⟨i, _, rfl⟩
      exact hg_nonneg i
    · exact (List.pairwise_lt_range _).map _ hg_mono
  · intro p hp
    rw [progressTrace] at hp
    rcases List.mem_cons.mp hp with rfl | hp
    · exact ⟨le_refl 0, by norm_num⟩
    · rcases List.mem_map.mp hp with ⟨i, hi, rfl⟩
      rw [List.mem_range, hlen] at hi
      exact ⟨hg_nonneg i, hg_le i hi⟩
  · rw [progressTrace]
    simp
  · rw [progressTrace, hlen]
    obtain ⟨k, hk⟩ : ∃ k, (totalFrames d f).toNat = k + 1 :=
      ⟨(totalFrames d f).toNat - 1, by omega⟩
    rw [hk, List.range_succ, List.map_append, List.map_singleton,
      ← List.cons_append, List.getLast?_concat]
    have hgk : ((k : ℚ) + 1) / ((totalFrames d f : ℤ) : ℚ) * 100 = 100 := by
      have hTk : ((totalFrames d f : ℤ) : ℚ) = (k : ℚ) + 1 := by
        rw [← hcast, hk]
        push_cast
        ring
      rw [hTk]
      have : (k : ℚ) + 1 ≠ 0 := by positivity
      field_simp
    rw [hgk]

/-- Witness for C3 at `duration = 1`, `fps = 2`. -/
theorem export_progress_properties_witness :
    (progressTrace 1 2).Pairwise (· ≤ ·) ∧
    (∀ p ∈ progressTrace 1 2, 0 ≤ p ∧ p ≤ 100) ∧
    (progressTrace 1 2).length = (sampledTimestamps 1 2).length + 1 ∧
    (progressTrace 1 2).getLast? = some 100 :=
  export_progress_properties 1 2 (by norm_num) (by norm_num)

/-! ## Canvas dimensions (video-edit.tsx lines 56-74) -/

/-- JS `Math.round` for the non-negative values arising here: `⌊q + 1/2⌋`
(`Math.round` rounds half-way cases toward positive infinity). -/
def jsRound (q : ℚ) : ℤ := ⌊q + 1/2⌋

/-- `const aspectRatio = videoWidth / videoHeight || 16 / 9`
(video-edit.tsx line 57): a JS quotient that is `0` or `NaN` is falsy, so a
zero `videoWidth` — in particular the unknown `0×0` video before metadata
loads — falls back to `16/9`. (`videoHeight = 0` with `videoWidth ≠ 0` would
give `Infinity` in JS; an `HTMLVideoElement` reports a zero width whenever
its height is zero, so that corner is unreachable and the model maps it to
the fallback as well.) -/
def aspectRatioOrDefault (videoWidth videoHeight : ℕ) : ℚ :=
  if videoWidth = 0 ∨ videoHeight = 0 then 16/9
  else (videoWidth : ℚ) / (videoHeight : ℚ)

/-- The `switch (resolution)` height values (video-edit.tsx lines 60-70). -/
def resolutionHeight : Resolution → ℕ
  | .p1080 => 1080
  | .p720 => 720
  | .p540 => 540

/-- `getCanvasDimensions` (video-edit.tsx lines 56-74):
`width = Math.round(height * aspectRatio)` paired with the height. -/
def getCanvasDimensions (videoWidth videoHeight : ℕ) (r : Resolution) :
    ℤ × ℕ :=
  let aspectRatio := aspectRatioOrDefault videoWidth videoHeight
  let height := resolutionHeight r
  (jsRound ((height : ℚ) * aspectRatio), height)

/-- C6: the output height is 1080/720/540 for resolution 1080p/720p/540p,
the width is `round(height × aspectRatio)` with the aspect ratio defaulting
to `16/9` when the source dimensions are unknown, and for a 16:9 source the
three resolutions yield exactly 1920×1080, 1280×720 and 960×540. -/
theorem canvas_dimensions_correct :
    (∀ w h : ℕ, (getCanvasDimensions w h Resolution.p1080).2 = 1080 ∧
        (getCanvasDimensions w h Resolution.p720).2 = 720 ∧
        (getCanvasDimensions w h Resolution.p540).2 = 540) ∧
    (∀ (w h : ℕ) (r : Resolution), (getCanvasDimensions w h r).1 =
        jsRound ((resolutionHeight r : ℚ) * aspectRatioOrDefault w h)) ∧
    aspectRatioOrDefault 0 0 = 16/9 ∧
    getCanvasDimensions 16 9 Resolution.p1080 = (1920, 1080) ∧
    getCanvasDimensions 16 9 Resolution.p720 = (1280, 720) ∧
    getCanvasDimensions 16 9 Resolution.p540 = (960, 540) := by
  refine ⟨fun w h => ⟨rfl, rfl, rfl⟩, fun w h r => rfl, rfl, ?_, ?_, ?_⟩ <;>
  · simp only [getCanvasDimensions, aspectRatioOrDefault, resolutionHeight,
      jsRound, Prod.mk.injEq]
    norm_num

/-! ## Output mime type and download filename
(video-edit.tsx lines 283-306 and 373-378) -/

/-- The filter identifiers as they appear in the UI state. -/
def filterName : VideoFilter → String
  | .none => "none"
  | .sepia => "sepia"
  | .grayscale => "grayscale"
  | .invert => "invert"

def resolutionName : Resolution → String
  | .p1080 => "1080p"
  | .p720 => "720p"
  | .p540 => "540p"

def formatName : Format → String
  | .webm => "webm"
  | .mp4 => "mp4"

/-- The type of the produced blob:
`format === 'mp4' ? 'video/mp4' : 'video/webm'` (video-edit.tsx line 304). -/
def blobType (fmt : Format) : String :=
  if fmt = Format.mp4 then "video/mp4" else "video/webm"

/-- The suggested download filename (video-edit.tsx lines 375-377):
`${filter !== 'none' ? filter + '-' : ''}${resolution}-${fps}fps-video.${format}`. -/
def downloadName (fl : VideoFilter) (r : Resolution) (fps : ℕ)
    (fmt : Format) : String :=
  (if fl ≠ VideoFilter.none then filterName fl ++ "-" else "")
    ++ resolutionName r ++ "-" ++ toString fps ++ "fps-video."
    ++ formatName fmt

/-- The filename pattern the spec claims for every configuration:
`{filter}-{resolution}-{fps}fps-video.{format}`. Stated from the spec's
words, for comparison with `downloadName`. -/
def specFilenamePattern (fl : VideoFilter) (r : Resolution) (fps : ℕ)
    (fmt : Format) : String :=
  filterName fl ++ "-" ++ resolutionName r ++ "-" ++ toString fps
    ++ "fps-video." ++ formatName fmt

/-- C5 fails as stated: with `filter = none` the produced filename omits the
filter segment entirely — it is `"720p-30fps-video.webm"`, not the claimed
`"none-720p-30fps-video.webm"`. -/
theorem download_name_counterexample :
    downloadName VideoFilter.none Resolution.p720 30 Format.webm =
      "720p-30fps-video.webm" ∧
    downloadName VideoFilter.none Resolution.p720 30 Format.webm ≠
      specFilenamePattern VideoFilter.none Resolution.p720 30 Format.webm := by
  constructor <;> decide

/-- C5 amended: the artifact mime type is `video/webm` for format webm and
`video/mp4` for format mp4; the suggested filename follows
`{filter}-{resolution}-{fps}fps-video.{format}` for every filter other than
`none`, while for `filter = none` the filter segment (including its dash) is
omitted. -/
theorem download_name_and_mime (r : Resolution) (fps : ℕ) (fmt : Format) :
    blobType Format.webm = "video/webm" ∧
    blobType Format.mp4 = "video/mp4" ∧
    (∀ fl : VideoFilter, fl ≠ VideoFilter.none →
      downloadName fl r fps fmt = specFilenamePattern fl r fps fmt) ∧
    downloadName VideoFilter.none r fps fmt =
      "" ++ resolutionName r ++ "-" ++ toString fps ++ "fps-video."
        ++ formatName fmt := by
  refine ⟨rfl, rfl, ?_, ?_⟩
  · intro fl hfl
    simp [downloadName, specFilenamePattern, hfl]
  · simp [downloadName]

/-- Witness for the amended C5 at `filter = sepia`, 720p, 30 fps, webm. -/
theorem download_name_and_mime_witness :
    downloadName VideoFilter.sepia Resolution.p720 30 Format.webm =
      specFilenamePattern VideoFilter.sepia Resolution.p720 30 Format.webm :=
  (download_name_and_mime Resolution.p720 30 Format.webm).2.2.1
    VideoFilter.sepia (by decide)

/-! ## Pixel filter kernels

The export pipeline selects the per-pixel kernel by name only: the canvas
worker (`canvas.worker.ts` lines 11-23) sets `ctx.filter = 'grayscale(100%)'`
/ `'invert(100%)'` / `'sepia(100%)'` on an OffscreenCanvas, and the ffmpeg
worker (`ffmpeg.worker.ts` lines 15-23) passes `format=gray` / `negate` / a
`colorchannelmixer` coefficient string. The per-pixel arithmetic itself
therefore lives in the browser / ffmpeg, outside the repository source, and
is modelled here from the spec's formulas. -/

/-- An RGBA8 pixel; channel values range over `0..255`. -/
structure RGBA where
  r : ℕ
  g : ℕ
  b : ℕ
  a : ℕ
deriving DecidableEq, Repr

/-- Modelled from the spec: the grayscale kernel behind
`ctx.filter = 'grayscale(100%)'` / `format=gray`, whose per-pixel arithmetic
is not in `src/`. Spec: `luma = 0.299R + 0.587G + 0.114B` (rounded), output
`(luma, luma, luma, A)`. -/
def grayscaleKernel (p : RGBA) : RGBA :=
  let luma :=
    (jsRound ((299 * p.r + 587 * p.g + 114 * p.b : ℚ) / 1000)).toNat
  ⟨luma, luma, luma, p.a⟩

/-- C7: grayscale outputs `(luma, luma, luma, A)` with
`luma = round(0.299R + 0.587G + 0.114B)`; in particular every output pixel
satisfies `R = G = B`, and the alpha channel is preserved. -/
theorem grayscale_kernel_luma (p : RGBA) :
    grayscaleKernel p =
      ⟨(jsRound ((299 * p.r + 587 * p.g + 114 * p.b : ℚ) / 1000)).toNat,
       (jsRound ((299 * p.r + 587 * p.g + 114 * p.b : ℚ) / 1000)).toNat,
       (jsRound ((299 * p.r + 587 * p.g + 114 * p.b : ℚ) / 1000)).toNat,
       p.a⟩ ∧
    (grayscaleKernel p).r = (grayscaleKernel p).g ∧
    (grayscaleKernel p).g = (grayscaleKernel p).b ∧
    (grayscaleKernel p).a = p.a :=
  ⟨rfl, rfl, rfl, rfl⟩

/-- Modelled from the spec: the inversion kernel behind
`ctx.filter = 'invert(100%)'` / ffmpeg `negate`, whose per-pixel arithmetic
is not in `src/`. Spec: `(255−R, 255−G, 255−B, A)`. -/
def invertKernel (p : RGBA) : RGBA :=
  ⟨255 - p.r, 255 - p.g, 255 - p.b, p.a⟩

/-- C8: invert maps `(R,G,B,A)` to `(255−R, 255−G, 255−B, A)` and is its own
inverse on 8-bit pixel values: `invert (invert p) = p`. -/
theorem invert_kernel_involution (p : RGBA) (hr : p.r ≤ 255)
    (hg : p.g ≤ 255) (hb : p.b ≤ 255) :
    invertKernel p = ⟨255 - p.r, 255 - p.g, 255 - p.b, p.a⟩ ∧
    invertKernel (invertKernel p) = p := by
  refine ⟨rfl, ?_⟩
  cases p
  simp only [invertKernel, RGBA.mk.injEq] at *
  refine ⟨?_, ?_, ?_, trivial⟩ <;> omega

/-- Witness for C8 at the pixel `(10, 20, 30, 40)`. -/
theorem invert_kernel_involution_witness :
    invertKernel (invertKernel ⟨10, 20, 30, 40⟩) = (⟨10, 20, 30, 40⟩ : RGBA) :=
  (invert_kernel_involution ⟨10, 20, 30, 40⟩ (by norm_num) (by norm_num)
    (by norm_num)).2

/-! ## The outcome of an export run (video-edit.tsx lines 217-405)

After the frame loop, `exportVideo` unconditionally calls
`mediaRecorder.stop()` (line 363), awaits the recording blob (lines 301-309,
370) and clicks the download anchor (lines 373-378); the success toast
(`Export complete`) fires. A thrown error is absorbed by the `catch` (lines
392-399) and surfaces as the `Export failed` toast. These are the only two
terminal outcomes: the body contains no cancellation check of any kind. -/

inductive ExportStatus
  | complete
  | failed
deriving DecidableEq, Repr

structure ExportOutcome where
  framesProcessed : ℕ
  artifactProduced : Bool
  artifactMime : Option String
  downloadTriggered : Bool
  status : ExportStatus
deriving DecidableEq, Repr

/-- One non-throwing run of `exportVideo` (video-edit.tsx lines 217-391).
The `cancelSignalAt` argument models an external cancellation request issued
before frame `i` of the loop; it is unused on the right-hand side because
the body of `exportVideo` never reads any cancellation signal — the loop
always runs to its own termination (`sampledTimestamps` frames), after which
`mediaRecorder.stop()` produces the blob (type `blobType fmt`, line 304) and
the download anchor is clicked. -/
def exportVideoRun (duration : ℚ) (fps : ℕ) (fmt : Format)
    (cancelSignalAt : Option ℕ) : ExportOutcome :=
  { framesProcessed := (sampledTimestamps duration fps).length
    artifactProduced := true
    artifactMime := some (blobType fmt)
    downloadTriggered := true
    status := ExportStatus.complete }

/-- C4 fails as stated: a cancellation request issued before frame 0 of a
`duration = 1`, `fps = 2` export has no effect — both frames are still
processed, an artifact is produced and downloaded, and the terminal status
is `complete` (the code has no `Cancelled` status at all). -/
theorem export_cancellation_counterexample :
    (exportVideoRun 1 2 Format.webm (Option.some 0)).framesProcessed = 2 ∧
    (exportVideoRun 1 2 Format.webm (Option.some 0)).artifactProduced = true ∧
    (exportVideoRun 1 2 Format.webm (Option.some 0)).status =
      ExportStatus.complete := by
  refine ⟨?_, rfl, rfl⟩
  show (sampledTimestamps 1 2).length = 2
  rw [sampledTimestamps_one_two]
  rfl

/-- C4 amended: `exportVideo` implements no cancellation — the outcome of a
run is independent of any cancellation signal (the body never reads one),
the loop is never cut short by a signal, and every non-throwing run produces
an artifact and terminates with status `complete`; no `Cancelled` terminal
status exists in the code. -/
theorem export_ignores_cancellation (d : ℚ) (f : ℕ) (fmt : Format)
    (c c' : Option ℕ) :
    exportVideoRun d f fmt c = exportVideoRun d f fmt c' ∧
    (exportVideoRun d f fmt c).artifactProduced = true ∧
    (exportVideoRun d f fmt c).status = ExportStatus.complete :=
  ⟨rfl, rfl, rfl⟩

/-- C9 fails as stated: with `duration = 0` the loop processes zero frames,
yet the export does not fail with any `EmptyOutput` error — the recorder is
still stopped, a blob artifact is produced and downloaded, and the run
completes. -/
theorem export_empty_output_counterexample :
    (exportVideoRun 0 30 Format.webm Option.none).framesProcessed = 0 ∧
    (exportVideoRun 0 30 Format.webm Option.none).artifactProduced = true ∧
    (exportVideoRun 0 30 Format.webm Option.none).downloadTriggered = true ∧
    (exportVideoRun 0 30 Format.webm Option.none).status =
      ExportStatus.complete := by
  refine ⟨?_, rfl, rfl, rfl⟩
  show (sampledTimestamps 0 30).length = 0
  have h : totalFrames 0 30 = 0 := by norm_num [totalFrames]
  simp [sampledTimestamps, h]

/-- C9 amended: when the source duration is non-positive the loop processes
zero frames, yet the job still completes — an artifact is produced and the
download is triggered; no `EmptyOutput` (or any other) failure occurs. -/
theorem export_zero_frames_completes (d : ℚ) (f : ℕ) (fmt : Format)
    (hd : d ≤ 0) :
    (exportVideoRun d f fmt Option.none).framesProcessed = 0 ∧
    (exportVideoRun d f fmt Option.none).artifactProduced = true ∧
    (exportVideoRun d f fmt Option.none).status = ExportStatus.complete := by
  refine ⟨?_, rfl, rfl⟩
  show (sampledTimestamps d f).length = 0
  have hfQ : (0 : ℚ) ≤ f := by positivity
  have hT : totalFrames d f ≤ 0 := Int.ceil_le.mpr (by
    push_cast
    exact mul_nonpos_of_nonpos_of_nonneg hd hfQ)
  have : (totalFrames d f).toNat = 0 := by omega
  simp [sampledTimestamps, this]

/-- Witness for the amended C9 at `duration = 0`, `fps = 30`. -/
theorem export_zero_frames_completes_witness :
    (0 : ℚ) ≤ 0 ∧ (exportVideoRun 0 30 Format.webm Option.none).framesProcessed = 0 :=
  ⟨le_refl 0, (export_zero_frames_completes 0 30 Format.webm (le_refl 0)).1⟩

/-! ## Cleanup on every exit path (video-edit.tsx lines 217-405)

`exportVideo` sets `exporting = true`, `exportProgress = 0`, creates the
filter worker, and wraps the rest of the body in
`try { ... } catch (error) { ... } finally { setExporting(false);
setExportProgress(null); worker.terminate(); }` (lines 220-404). A JS
`finally` block runs whether the `try` body finishes normally, exits
through an early `return`, or throws (the `catch` absorbing the throw);
`exportVideoFinalState` composes the pieces in exactly that order. -/

inductive BodyExit
  | normal
  | earlyReturn
  | thrown
deriving DecidableEq, Repr

structure SessionState where
  exporting : Bool
  exportProgress : Option ℚ
  workerTerminated : Bool
deriving DecidableEq, Repr

/-- `setExporting(true); setExportProgress(0)` and the worker creation
(video-edit.tsx lines 220-223). -/
def startExport (s : SessionState) : SessionState :=
  { s with exporting := true
           exportProgress := Option.some 0
           workerTerminated := false }

/-- The try body's effect on the session state, by exit path: the normal
path leaves the last emitted progress value behind (lines 357-358); an early
`return` (lines 239, 245, 253) or a throw absorbed by the `catch` (lines
392-399) leaves whatever progress was already set. -/
def tryBody (exit : BodyExit) (d : ℚ) (f : ℕ) (s : SessionState) :
    SessionState :=
  match exit with
  | .normal => { s with exportProgress := (progressTrace d f).getLast? }
  | .earlyReturn => s
  | .thrown => s

/-- The `finally` block (video-edit.tsx lines 400-404):
`setExporting(false); setExportProgress(null); worker.terminate()`. -/
def finallyBlock (s : SessionState) : SessionState :=
  { s with exporting := false
           exportProgress := Option.none
           workerTerminated := true }

/-- The session state after a call of `exportVideo` that started a job, for
any exit path of the try body. -/
def exportVideoFinalState (exit : BodyExit) (d : ℚ) (f : ℕ)
    (s : SessionState) : SessionState :=
  finallyBlock (tryBody exit d f (startExport s))

/-- C10: on every exit path of a started `exportVideo` job — normal
completion, an early return inside the try body, or a thrown error — the
`finally` block leaves the filter worker terminated, the `exporting` flag
reset to `false`, and the export progress reset to `null`. -/
theorem export_cleanup_on_all_paths (exit : BodyExit) (d : ℚ) (f : ℕ)
    (s : SessionState) :
    (exportVideoFinalState exit d f s).exporting = false ∧
    (exportVideoFinalState exit d f s).exportProgress = Option.none ∧
    (exportVideoFinalState exit d f s).workerTerminated = true := by
  cases exit <;> exact ⟨rfl, rfl, rfl⟩

end VideoSorcerer
